import Mathlib

/-!
# gogocyclo: the record parser, the rule store and the filter driver

A shallow embedding of `main.go`.  Go strings are modelled by the list of their
characters; the source only splits on the ASCII separators `" "` and `":"`, tests
a string for a leading substring and compares strings for equality.

Library functions the program calls (`strings.Split`, `strings.HasPrefix`,
`strconv.Atoi`, the `%d` verb of `fmt`, `token.Position.String`, `log.Fatal`,
the anchored regular expression of `ignorePattern`) are modelled from their
documented behaviour; `int` is 64 bits wide.
-/

namespace Gogocyclo

/-- Go `string`. -/
abbrev GoString := List Char

/-! ## Library: strings -/

/-- Go `strings.HasPrefix(s, p)`: `len(s) >= len(p) && s[:len(p)] == p`. -/
def HasPrefix (s p : GoString) : Bool :=
  decide (p.length ≤ s.length) && decide (s.take p.length = p)

/-- Go `strings.Split(s, sep)` for a one-character separator, the only way the
source calls it: the pieces between the occurrences of `sep`, of which there is
always at least one. -/
def Split (sep : Char) : GoString → List GoString
  | [] => [[]]
  | c :: cs =>
    if c = sep then [] :: Split sep cs
    else
      match Split sep cs with
      | [] => [[c]]
      | t :: ts => (c :: t) :: ts

/-! ## Library: strconv -/

/-- The two sentinel errors of `strconv`. -/
inductive NumErrKind
  | ErrSyntax
  | ErrRange
deriving DecidableEq, Repr

/-- Go `*strconv.NumError`. -/
structure NumError where
  Func : GoString
  Num : GoString
  Err : NumErrKind
deriving DecidableEq, Repr

/-- Go `error` values the program can meet. -/
inductive GoError
  | num (e : NumError)
  | errorf (msg : GoString)
  | external (msg : GoString)
deriving DecidableEq, Repr

/-- Width of Go `int`. -/
def intSize : Nat := 64

/-- Largest `uint64`. -/
def maxUint64 : Nat := 2 ^ 64 - 1

/-- The digit loop of `strconv.ParseUint(s, 10, 64)`: `n` is the value read so
far.  Returns the value and the kind of error, if any. -/
def parseUintLoop : GoString → Nat → Nat × Option NumErrKind
  | [], n => (n, none)
  | c :: cs, n =>
    if 48 ≤ c.toNat ∧ c.toNat ≤ 57 then
      let d := c.toNat - 48
      if n ≥ maxUint64 / 10 + 1 then (maxUint64, some NumErrKind.ErrRange)
      else
        let n10 := n * 10
        let n1 := (n10 + d) % 2 ^ 64
        if n1 < n10 ∨ n1 > maxUint64 then (maxUint64, some NumErrKind.ErrRange)
        else parseUintLoop cs n1
    else (0, some NumErrKind.ErrSyntax)

/-- Go `strconv.ParseUint(s, 10, 64)`. -/
def ParseUint (s : GoString) : Nat × Option NumErrKind :=
  match s with
  | [] => (0, some NumErrKind.ErrSyntax)
  | _ :: _ => parseUintLoop s 0

/-- Go `strconv.ParseInt(s, 10, 0)`, with the name of the calling function for
the error value. -/
def ParseInt (fn : GoString) (s0 : GoString) : Int × Option NumError :=
  match s0 with
  | [] => (0, some ⟨fn, s0, NumErrKind.ErrSyntax⟩)
  | c :: rest =>
    let neg : Bool := decide (c = '-')
    let s : GoString := if c = '+' ∨ c = '-' then rest else s0
    let r := ParseUint s
    if r.2 = some NumErrKind.ErrSyntax then (0, some ⟨fn, s0, NumErrKind.ErrSyntax⟩)
    else
      let cutoff : Nat := 2 ^ (intSize - 1)
      if neg = false ∧ r.1 ≥ cutoff then
        (((cutoff - 1 : Nat) : Int), some ⟨fn, s0, NumErrKind.ErrRange⟩)
      else if neg = true ∧ r.1 > cutoff then
        (-((cutoff : Nat) : Int), some ⟨fn, s0, NumErrKind.ErrRange⟩)
      else if neg then (-((r.1 : Nat) : Int), none)
      else (((r.1 : Nat) : Int), none)

/-- Go `strconv.Atoi(s)`: `ParseInt(s, 10, 0)` as an `int`, the error naming
`Atoi` (the fast path for short strings computes the same result). -/
def Atoi (s : GoString) : Int × Option NumError :=
  ParseInt "Atoi".toList s

/-- Go `strconv.Itoa`, which is also what the verb `%d` prints for an `int`. -/
def Itoa (n : Int) : GoString :=
  if n < 0 then '-' :: Nat.toDigits 10 n.natAbs else Nat.toDigits 10 n.natAbs

/-! ## Library: go/token -/

/-- Go `token.Position`. -/
structure Position where
  Filename : GoString
  Offset : Int
  Line : Int
  Column : Int
deriving DecidableEq, Repr

/-- Go `token.Position.IsValid`. -/
def Position.IsValid (pos : Position) : Bool := decide (pos.Line > 0)

/-- Go `token.Position.String`: `file:line:column`, `file:line` when the column
is zero, `line:column` or `line` without a file name, `file` when the line is
not positive, and `-` when there is nothing to print.  The offset is never
printed. -/
def Position.String (pos : Position) : GoString :=
  let s := pos.Filename
  let s :=
    if pos.IsValid then
      let s := if s ≠ [] then s ++ ":".toList else s
      let s := s ++ Itoa pos.Line
      if pos.Column ≠ 0 then s ++ ":".toList ++ Itoa pos.Column else s
    else s
  if s = [] then "-".toList else s

/-! ## Data model of `main.go` -/

/-- The source's `statistic`. -/
structure statistic where
  PackageName : GoString
  FuncName : GoString
  Complexity : Int
  Pos : Position
deriving DecidableEq, Repr

/-- The source's `ignoreRule`. -/
structure ignoreRule where
  PackageName : GoString
  FuncName : GoString
deriving DecidableEq, Repr

/-- The source's `ignoreRules`. -/
abbrev ignoreRules := List ignoreRule

/-- The source's `configuration`. -/
structure configuration where
  Ignores : ignoreRules
deriving DecidableEq, Repr

/-- The zero value `statistic{}`. -/
def statistic.zero : statistic :=
  { PackageName := [], FuncName := [], Complexity := 0,
    Pos := { Filename := [], Offset := 0, Line := 0, Column := 0 } }

/-- How a call of a method with a pointer receiver ends: it returns, leaving the
receiver in state `st` and giving back `err` (`none` is Go `nil`), or the
run-time system panics on an index out of range. -/
inductive Call (σ : Type)
  | returned (st : σ) (err : Option GoError)
  | panicked
deriving DecidableEq, Repr

/-! ## Filter engine -/

/-- The source's `ignoreRule.Match`. -/
def ignoreRule.Match (ignore : ignoreRule) (stat : statistic) : Bool :=
  if HasPrefix stat.PackageName ignore.PackageName then
    if ignore.FuncName = "*".toList then true
    else decide (stat.FuncName = ignore.FuncName)
  else false

/-- The source's `ignoreRules.Match`: the loop returns at the first rule that
matches. -/
def ignoreRules.Match : ignoreRules → statistic → Bool
  | [], _ => false
  | rule :: rules, stat =>
    if rule.Match stat then true else ignoreRules.Match rules stat

/-! ## Record parser -/

/-- The source's `position.FromText`. -/
def position.FromText (p : Position) (s : GoString) : Call Position :=
  let ss := Split ':' s
  match ss[0]? with
  | none => Call.panicked
  | some s0 =>
    let p := { p with Filename := s0 }
    match ss[1]? with
    | none => Call.panicked
    | some s1 =>
      let r := Atoi s1
      let p := { p with Offset := r.1 }
      match r.2 with
      | some e => Call.returned p (some (GoError.num e))
      | none =>
        match ss[2]? with
        | none => Call.panicked
        | some s2 =>
          let r := Atoi s2
          let p := { p with Line := r.1 }
          match r.2 with
          | some e => Call.returned p (some (GoError.num e))
          | none => Call.returned p none

/-- The source's `statistic.FromLine`. -/
def statistic.FromLine (stat : statistic) (str : GoString) : Call statistic :=
  let ss := Split ' ' str
  match ss[0]? with
  | none => Call.panicked
  | some s0 =>
    let r := Atoi s0
    let stat := { stat with Complexity := r.1 }
    match r.2 with
    | some e => Call.returned stat (some (GoError.num e))
    | none =>
      match ss[1]? with
      | none => Call.panicked
      | some s1 =>
        let stat := { stat with PackageName := s1 }
        match ss[2]? with
        | none => Call.panicked
        | some s2 =>
          let stat := { stat with FuncName := s2 }
          match ss[3]? with
          | none => Call.panicked
          | some s3 =>
            match position.FromText stat.Pos s3 with
            | Call.panicked => Call.panicked
            | Call.returned p err => Call.returned { stat with Pos := p } err

/-- The source's `statistic.String`: `fmt.Sprintf("%d %s %s %s", ...)`, the last
operand printed by `token.Position.String`. -/
def statistic.String (s : statistic) : GoString :=
  Itoa s.Complexity ++ " ".toList ++ s.PackageName ++ " ".toList ++ s.FuncName
    ++ " ".toList ++ s.Pos.String

/-! ## Rule store -/

/-- The backtick that delimits the package name of a raw rule. -/
def backtick : Char := Char.ofNat 96

/-- What `.` matches in a Go regular expression compiled without the `s` flag:
every character but the newline. -/
def dot (c : Char) : Bool := decide (c ≠ Char.ofNat 10)

/-- The end of `ignorePattern`, `(.+)\z`: one or more characters up to the end of
the text.  Returns the capture. -/
def matchFunc (s : GoString) : Option GoString :=
  if s ≠ [] ∧ s.all dot = true then some s else none

/-- The part of `ignorePattern` after the first group: a backtick, `.` (any one
character), then `(.+)\z`. -/
def matchAfterPackage : GoString → Option GoString
  | q :: c :: rest => if q = backtick ∧ dot c = true then matchFunc rest else none
  | _ => none

/-- The first group `(.+)` of `ignorePattern` and all that follows it.  The
repetition is greedy: after one character it first tries to take more, and
only when that fails does it try to end the group here.  Returns both
captures. -/
def matchPackage : GoString → Option (GoString × GoString)
  | [] => none
  | c :: cs =>
    if dot c = true then
      match matchPackage cs with
      | some (p, f) => some (c :: p, f)
      | none =>
        match matchAfterPackage cs with
        | some f => some ([c], f)
        | none => none
    else none

/-- The source's `ignorePattern.FindAllStringSubmatch(s, -1)` for the pattern
``\A`(.+)`.(.+)\z``: the pattern is anchored at both ends, so there is at most
one match, made of the whole text and the two captures. -/
def ignorePattern.FindAllStringSubmatch (s : GoString) : List (List GoString) :=
  match s with
  | [] => []
  | q :: rest =>
    if q = backtick then
      match matchPackage rest with
      | some (p, f) => [[s, p, f]]
      | none => []
    else []

/-- The source's `gitconfig`: the values of the key `ignores` of the section
`gogocyclo`, as `gcfg` hands them over. -/
structure gitconfig where
  Ignores : List GoString
deriving DecidableEq, Repr

/-- The error `configFromFile` builds for a raw value that is not a rule. -/
def formatError (rawIgnore : GoString) : GoError :=
  GoError.errorf ("parse ".toList ++ rawIgnore
    ++ ": ignores not in format `Package`.Func".toList)

/-- The loop of the source's `configFromFile` over the raw values, `config`
being the rules appended so far. -/
def configLoop : List GoString → configuration → configuration × Option GoError
  | [], config => (config, none)
  | rawIgnore :: rest, config =>
    let submatches := ignorePattern.FindAllStringSubmatch rawIgnore
    if submatches.length ≠ 1 ∨ (submatches.head?.map List.length) ≠ some 3 then
      (config, some (formatError rawIgnore))
    else
      match submatches with
      | [[_, p, f]] =>
        configLoop rest { Ignores := config.Ignores ++ [{ PackageName := p, FuncName := f }] }
      | _ => (config, some (formatError rawIgnore))

/-- The source's `configFromFile`; `gcfg` is what `gcfg.ReadFileInto` made of the
file at the configured path.  The first component is the returned pointer
(`none` is `nil`), the second the returned error. -/
def configFromFile (gcfg : Except GoError gitconfig) : Option configuration × Option GoError :=
  match gcfg with
  | Except.error e => (none, some e)
  | Except.ok gconfig =>
    let r := configLoop gconfig.Ignores { Ignores := [] }
    (some r.1, r.2)

/-! ## Driver -/

/-- What the process leaves behind: the lines written to standard output and
the exit status. -/
structure Process where
  stdout : List GoString
  status : Nat
deriving DecidableEq, Repr

/-- Go `log.Fatal`: a line on standard error, then `os.Exit(1)`. -/
def logFatal (stdout : List GoString) : Process := { stdout := stdout, status := 1 }

/-- An unrecovered run-time panic: a trace on standard error, exit status 2. -/
def runtimePanic (stdout : List GoString) : Process := { stdout := stdout, status := 2 }

/-- How the scanning loop of `main` ends. -/
inductive Scan
  | fatal (err : GoError)
  | panicked
  | done (stats : List statistic)
deriving DecidableEq, Repr

/-- The scanning loop of `main`: every line is parsed into a fresh `statistic{}`
and appended to `stats`. -/
def scanLoop : List GoString → List statistic → Scan
  | [], stats => Scan.done stats
  | line :: rest, stats =>
    match statistic.FromLine statistic.zero line with
    | Call.panicked => Scan.panicked
    | Call.returned _ (some err) => Scan.fatal err
    | Call.returned stat none => scanLoop rest (stats ++ [stat])

/-- The filtering loop of `main`, `filteredStats` being what was kept so far. -/
def filterLoop (rules : ignoreRules) : List statistic → List statistic → List statistic
  | [], filteredStats => filteredStats
  | stat :: rest, filteredStats =>
    if !(ignoreRules.Match rules stat) then filterLoop rules rest (filteredStats ++ [stat])
    else filterLoop rules rest filteredStats

/-- The sequence `filteredStats` that `main` reports for the parsed `stats`. -/
def filteredStats (rules : ignoreRules) (stats : List statistic) : List statistic :=
  filterLoop rules stats []

/-- The body of `main` once the configuration is loaded: `lines` are the lines
the scanner yields from standard input and `scanErr` is `scanner.Err()`. -/
def mainLoaded (config : configuration) (lines : List GoString)
    (scanErr : Option GoError) : Process :=
  match scanLoop lines [] with
  | Scan.fatal _ => logFatal []
  | Scan.panicked => runtimePanic []
  | Scan.done stats =>
    match scanErr with
    | some _ => logFatal []
    | none =>
      let kept := filteredStats config.Ignores stats
      if kept.length > 0 then { stdout := kept.map statistic.String, status := 1 }
      else { stdout := [], status := 0 }

/-- The source's `main`, after `flag.Parse` has accepted the flags: `args` are
the positional arguments and `gcfg` is what `gcfg.ReadFileInto` made of the
configuration file. -/
def main (args : List GoString) (gcfg : Except GoError gitconfig)
    (lines : List GoString) (scanErr : Option GoError) : Process :=
  if args.length > 0 then logFatal []
  else
    match configFromFile gcfg with
    | (_, some _) => logFatal []
    | (none, none) => runtimePanic []
    | (some config, none) => mainLoaded config lines scanErr


/-! ## Notions of the specification -/

/-- The line `line` parses, without error, into the statistic `s`. -/
def ParsesTo (line : GoString) (s : statistic) : Prop :=
  statistic.FromLine statistic.zero line = Call.returned s none

/-- A decimal digit. -/
def isDigit (c : Char) : Bool := decide (48 ≤ c.toNat ∧ c.toNat ≤ 57)

/-- The number that the digits `ds`, read after the number `n`, denote. -/
def digitsFrom (n : Nat) (ds : GoString) : Nat :=
  ds.foldl (fun m c => m * 10 + (c.toNat - 48)) n

/-- The number a text of decimal digits denotes. -/
def digitsValue (ds : GoString) : Nat := digitsFrom 0 ds

/-- The integer a text denotes in base 10, when it is one: an optional sign
followed by one or more decimal digits. -/
def decimalInt (s : GoString) : Option Int :=
  match s with
  | [] => none
  | c :: rest =>
    if c = '-' then
      if rest ≠ [] ∧ rest.all isDigit = true then some (-(digitsValue rest : Int)) else none
    else if c = '+' then
      if rest ≠ [] ∧ rest.all isDigit = true then some (digitsValue rest : Int) else none
    else if s.all isDigit = true then some (digitsValue s : Int) else none

/-- The integer a text denotes in base 10, when it is one that a Go `int` holds:
a value from `-2^63` to `2^63 - 1`. -/
def base10Int (s : GoString) : Option Int :=
  match decimalInt s with
  | none => none
  | some v => if -(2 : Int) ^ 63 ≤ v ∧ v < (2 : Int) ^ 63 then some v else none

/-! ## Sample records -/

/-- The record of the specification's scenarios. -/
def sampleLine : GoString := "15 database Query file.go:120:42".toList

/-- What `FromLine` makes of `sampleLine`. -/
def sampleStat : statistic :=
  { PackageName := "database".toList, FuncName := "Query".toList, Complexity := 15,
    Pos := { Filename := "file.go".toList, Offset := 120, Line := 42, Column := 0 } }

/-- The record of the specification's scenario of a complexity that is not a
number. -/
def abcLine : GoString := "abc database Query file.go:120:42".toList

/-- The configuration file without any rule. -/
def noRules : Except GoError gitconfig := Except.ok { Ignores := [] }

/-- The rule the loader makes of one raw value, when `ignorePattern` matches
it: the two captures of the one match. -/
def ruleOf (raw : GoString) : Option ignoreRule :=
  match ignorePattern.FindAllStringSubmatch raw with
  | [[_, p, f]] => some { PackageName := p, FuncName := f }
  | _ => none

/-- A statistic of the given package and function. -/
def statOf (pkg fn : String) : statistic :=
  { statistic.zero with PackageName := pkg.toList, FuncName := fn.toList }

/-! ## Lemmas on the library functions -/

theorem HasPrefix_iff (s p : GoString) : HasPrefix s p = true ↔ p <+: s := by
  unfold HasPrefix
  rw [List.prefix_iff_eq_take]
  constructor
  · intro h
    simp only [Bool.and_eq_true, decide_eq_true_eq] at h
    exact h.2.symm
  · intro h
    simp only [Bool.and_eq_true, decide_eq_true_eq]
    refine ⟨?_, h.symm⟩
    have := congrArg List.length h
    simp only [List.length_take] at this
    omega

theorem maxUint64_eq : maxUint64 = 18446744073709551615 := by
  unfold maxUint64; norm_num

theorem digitsFrom_ge (ds : GoString) (n : Nat) : n ≤ digitsFrom n ds := by
  induction ds generalizing n with
  | nil => simp [digitsFrom]
  | cons c cs ih =>
    have h := ih (n * 10 + (c.toNat - 48))
    simp only [digitsFrom, List.foldl_cons] at h ⊢
    omega

theorem parseUintLoop_ok (cs : GoString) (n : Nat) (hd : cs.all isDigit = true)
    (hv : digitsFrom n cs ≤ maxUint64) :
    parseUintLoop cs n = (digitsFrom n cs, none) := by
  induction cs generalizing n with
  | nil => simp [parseUintLoop, digitsFrom]
  | cons c cs ih =>
    simp only [List.all_cons, Bool.and_eq_true] at hd
    have hc : 48 ≤ c.toNat ∧ c.toNat ≤ 57 := by simpa [isDigit] using hd.1
    have hstep : digitsFrom n (c :: cs) = digitsFrom (n * 10 + (c.toNat - 48)) cs := by
      simp [digitsFrom]
    rw [hstep] at hv ⊢
    have hge := digitsFrom_ge cs (n * 10 + (c.toNat - 48))
    rw [maxUint64_eq] at hv
    have hmod : (n * 10 + (c.toNat - 48)) % 18446744073709551616 = n * 10 + (c.toNat - 48) :=
      Nat.mod_eq_of_lt (by omega)
    have ih2 := ih (n * 10 + (c.toNat - 48)) hd.2 (by rw [maxUint64_eq]; exact hv)
    unfold parseUintLoop
    simp only [hc, and_self, if_true, maxUint64_eq, Nat.reducePow, Nat.reduceDiv, Nat.reduceAdd,
      hmod]
    rw [if_neg (by omega), if_neg (by omega)]
    exact ih2

theorem parseUintLoop_range (cs : GoString) (n : Nat) (hd : cs.all isDigit = true)
    (hn : n ≤ maxUint64) (hv : maxUint64 < digitsFrom n cs) :
    parseUintLoop cs n = (maxUint64, some NumErrKind.ErrRange) := by
  induction cs generalizing n with
  | nil =>
    simp only [digitsFrom, List.foldl_nil] at hv
    omega
  | cons c cs ih =>
    simp only [List.all_cons, Bool.and_eq_true] at hd
    have hc : 48 ≤ c.toNat ∧ c.toNat ≤ 57 := by simpa [isDigit] using hd.1
    have hstep : digitsFrom n (c :: cs) = digitsFrom (n * 10 + (c.toNat - 48)) cs := by
      simp [digitsFrom]
    rw [hstep] at hv
    unfold parseUintLoop
    simp only [hc, and_self, if_true]
    by_cases h1 : n ≥ maxUint64 / 10 + 1
    · rw [if_pos h1]
    · rw [if_neg h1]
      by_cases h2 : (n * 10 + (c.toNat - 48)) % 2 ^ 64 < n * 10 ∨
          (n * 10 + (c.toNat - 48)) % 2 ^ 64 > maxUint64
      · simp only [h2, if_true]
      · simp only [h2, if_false]
        rw [maxUint64_eq] at h1 h2
        have hlt : n * 10 + (c.toNat - 48) < 18446744073709551616 := by
          simp only [Nat.reducePow] at h2
          omega
        have hmod : (n * 10 + (c.toNat - 48)) % 2 ^ 64 = n * 10 + (c.toNat - 48) :=
          Nat.mod_eq_of_lt (by simpa using hlt)
        rw [hmod]
        exact ih _ hd.2 (by rw [maxUint64_eq]; omega) hv

theorem parseUintLoop_bad (cs : GoString) (n : Nat) (hd : ¬ cs.all isDigit = true) :
    parseUintLoop cs n = (0, some NumErrKind.ErrSyntax) ∨
      parseUintLoop cs n = (maxUint64, some NumErrKind.ErrRange) := by
  induction cs generalizing n with
  | nil => simp at hd
  | cons c cs ih =>
    unfold parseUintLoop
    by_cases hc : 48 ≤ c.toNat ∧ c.toNat ≤ 57
    · have hcs : ¬ cs.all isDigit = true := by
        intro h
        apply hd
        simp only [List.all_cons, Bool.and_eq_true]
        exact ⟨by simpa [isDigit] using hc, h⟩
      simp only [hc, and_self, if_true]
      split
      · exact Or.inr rfl
      · split
        · exact Or.inr rfl
        · exact ih _ hcs
    · rw [if_neg hc]
      exact Or.inl rfl

theorem ParseUint_ok (s : GoString) (hne : s ≠ []) (hd : s.all isDigit = true)
    (hv : digitsValue s ≤ maxUint64) : ParseUint s = (digitsValue s, none) := by
  cases s with
  | nil => exact absurd rfl hne
  | cons c cs => exact parseUintLoop_ok (c :: cs) 0 hd hv

theorem ParseUint_range (s : GoString) (hd : s.all isDigit = true)
    (hv : maxUint64 < digitsValue s) : ParseUint s = (maxUint64, some NumErrKind.ErrRange) := by
  cases s with
  | nil => simp [digitsValue, digitsFrom] at hv
  | cons c cs => exact parseUintLoop_range (c :: cs) 0 hd (Nat.zero_le _) hv

theorem ParseUint_bad (s : GoString) (h : s = [] ∨ ¬ s.all isDigit = true) :
    ParseUint s = (0, some NumErrKind.ErrSyntax) ∨
      ParseUint s = (maxUint64, some NumErrKind.ErrRange) := by
  cases s with
  | nil => exact Or.inl rfl
  | cons c cs =>
    rcases h with h | h
    · exact absurd h (List.cons_ne_nil _ _)
    · exact parseUintLoop_bad (c :: cs) 0 h

/-- What `ParseInt` makes of the sign and of the result of `ParseUint`. -/
theorem ParseInt_cons (fn : GoString) (c : Char) (rest : GoString) :
    ParseInt fn (c :: rest) =
      (let r := ParseUint (if c = '+' ∨ c = '-' then rest else c :: rest)
       if r.2 = some NumErrKind.ErrSyntax then (0, some ⟨fn, c :: rest, NumErrKind.ErrSyntax⟩)
       else if decide (c = '-') = false ∧ r.1 ≥ 2 ^ 63 then
         (((2 ^ 63 - 1 : Nat) : Int), some ⟨fn, c :: rest, NumErrKind.ErrRange⟩)
       else if decide (c = '-') = true ∧ r.1 > 2 ^ 63 then
         (-((2 ^ 63 : Nat) : Int), some ⟨fn, c :: rest, NumErrKind.ErrRange⟩)
       else if decide (c = '-') = true then (-((r.1 : Nat) : Int), none)
       else (((r.1 : Nat) : Int), none)) := by
  rfl

theorem ParseInt_error_of_bad (fn : GoString) (c : Char) (rest : GoString)
    (h : ParseUint (if c = '+' ∨ c = '-' then rest else c :: rest)
        = (0, some NumErrKind.ErrSyntax) ∨
      ParseUint (if c = '+' ∨ c = '-' then rest else c :: rest)
        = (maxUint64, some NumErrKind.ErrRange)) :
    ∃ e, (ParseInt fn (c :: rest)).2 = some e := by
  rw [ParseInt_cons]
  rcases h with h | h
  · simp [h]
  · simp only [h, maxUint64_eq]
    by_cases hc : c = '-'
    · simp [hc]
    · simp [hc]

theorem ParseInt_of_value (fn : GoString) (c : Char) (rest : GoString) (u : Nat)
    (h : ParseUint (if c = '+' ∨ c = '-' then rest else c :: rest) = (u, none)) :
    ParseInt fn (c :: rest) =
      if c = '-' then
        (if u > 2 ^ 63 then (-((2 ^ 63 : Nat) : Int), some ⟨fn, c :: rest, NumErrKind.ErrRange⟩)
         else (-(u : Int), none))
      else
        (if u ≥ 2 ^ 63 then
          (((2 ^ 63 - 1 : Nat) : Int), some ⟨fn, c :: rest, NumErrKind.ErrRange⟩)
         else ((u : Int), none)) := by
  rw [ParseInt_cons]
  simp only [h]
  by_cases hc : c = '-'
  · by_cases hu : u > 2 ^ 63
    · simp [hc, hu]
    · simp [hc, hu]
  · by_cases hu : u ≥ 2 ^ 63
    · simp [hc, hu]
    · simp [hc, hu]

theorem decimalInt_cons (c : Char) (rest : GoString) :
    decimalInt (c :: rest) =
      (let body := if c = '+' ∨ c = '-' then rest else c :: rest
       if body ≠ [] ∧ body.all isDigit = true then
         some (if c = '-' then -(digitsValue body : Int) else (digitsValue body : Int))
       else none) := by
  unfold decimalInt
  by_cases h1 : c = '-'
  · simp [h1]
  · by_cases h2 : c = '+'
    · simp [h2]
    · simp [h1, h2]

theorem base10Int_cons (c : Char) (rest : GoString) :
    base10Int (c :: rest) =
      (let body := if c = '+' ∨ c = '-' then rest else c :: rest
       if body ≠ [] ∧ body.all isDigit = true then
         (if c = '-' then
            (if digitsValue body ≤ 2 ^ 63 then some (-(digitsValue body : Int)) else none)
          else (if digitsValue body < 2 ^ 63 then some (digitsValue body : Int) else none))
       else none) := by
  unfold base10Int
  rw [decimalInt_cons]
  simp only []
  generalize (if c = '+' ∨ c = '-' then rest else c :: rest) = body
  by_cases hb : body ≠ [] ∧ body.all isDigit = true
  · rw [if_pos hb, if_pos hb]
    by_cases hc : c = '-'
    · rw [if_pos hc, if_pos hc]
      by_cases hv : digitsValue body ≤ 2 ^ 63
      · rw [if_pos hv]
        simp only []
        rw [if_pos]
        constructor <;> omega
      · rw [if_neg hv]
        simp only []
        rw [if_neg]
        intro h
        omega
    · rw [if_neg hc, if_neg hc]
      by_cases hv : digitsValue body < 2 ^ 63
      · rw [if_pos hv]
        simp only []
        rw [if_pos]
        constructor <;> omega
      · rw [if_neg hv]
        simp only []
        rw [if_neg]
        intro h
        omega
  · rw [if_neg hb, if_neg hb]

theorem Atoi_of_base10Int (s : GoString) (v : Int) (h : base10Int s = some v) :
    Atoi s = (v, none) := by
  cases s with
  | nil => simp [base10Int, decimalInt] at h
  | cons c rest =>
    rw [base10Int_cons] at h
    unfold Atoi
    simp only [] at h
    have key := ParseInt_of_value "Atoi".toList c rest
    generalize (if c = '+' ∨ c = '-' then rest else c :: rest) = body at h key
    by_cases hb : body ≠ [] ∧ body.all isDigit = true
    · rw [if_pos hb] at h
      by_cases hc : c = '-'
      · rw [if_pos hc] at h
        by_cases hv : digitsValue body ≤ 2 ^ 63
        · rw [if_pos hv] at h
          have hu := ParseUint_ok _ hb.1 hb.2 (by rw [maxUint64_eq]; omega)
          rw [key _ hu, if_pos hc, if_neg (by omega), ← Option.some.inj h]
        · rw [if_neg hv] at h
          exact absurd h (by simp)
      · rw [if_neg hc] at h
        by_cases hv : digitsValue body < 2 ^ 63
        · rw [if_pos hv] at h
          have hu := ParseUint_ok _ hb.1 hb.2 (by rw [maxUint64_eq]; omega)
          rw [key _ hu, if_neg hc, if_neg (by omega), ← Option.some.inj h]
        · rw [if_neg hv] at h
          exact absurd h (by simp)
    · rw [if_neg hb] at h
      exact absurd h (by simp)

theorem Atoi_error_of_not_base10Int (s : GoString) (h : base10Int s = none) :
    ∃ e, (Atoi s).2 = some e := by
  unfold Atoi
  cases s with
  | nil => exact ⟨_, rfl⟩
  | cons c rest =>
    rw [base10Int_cons] at h
    simp only [] at h
    have key := ParseInt_of_value "Atoi".toList c rest
    have bad := ParseInt_error_of_bad "Atoi".toList c rest
    generalize (if c = '+' ∨ c = '-' then rest else c :: rest) = body at h key bad
    by_cases hb : body ≠ [] ∧ body.all isDigit = true
    · rw [if_pos hb] at h
      by_cases hmax : digitsValue body ≤ maxUint64
      · have hu := ParseUint_ok _ hb.1 hb.2 hmax
        rw [key _ hu]
        by_cases hc : c = '-'
        · rw [if_pos hc] at h ⊢
          by_cases hv : digitsValue body ≤ 2 ^ 63
          · rw [if_pos hv] at h
            exact absurd h (by simp)
          · rw [if_pos (by omega)]
            exact ⟨_, rfl⟩
        · rw [if_neg hc] at h ⊢
          by_cases hv : digitsValue body < 2 ^ 63
          · rw [if_pos hv] at h
            exact absurd h (by simp)
          · rw [if_pos (by omega)]
            exact ⟨_, rfl⟩
      · exact bad (Or.inr (ParseUint_range _ hb.2 (by omega)))
    · refine bad (ParseUint_bad _ ?_)
      by_cases hne : body = []
      · exact Or.inl hne
      · exact Or.inr (fun hall => hb ⟨hne, hall⟩)

theorem ignoreRule_Match_iff (r : ignoreRule) (S : statistic) :
    r.Match S = true ↔
      r.PackageName <+: S.PackageName ∧ (r.FuncName = "*".toList ∨ r.FuncName = S.FuncName) := by
  unfold ignoreRule.Match
  by_cases hp : HasPrefix S.PackageName r.PackageName = true
  · have hp2 := (HasPrefix_iff _ _).1 hp
    by_cases hs : r.FuncName = "*".toList
    · simp [hp, hs, hp2]
    · simp only [hp, hs, if_true, if_false, decide_eq_true_eq, hp2, true_and, false_or]
      exact eq_comm
  · have hp2 : ¬ r.PackageName <+: S.PackageName := fun h => hp ((HasPrefix_iff _ _).2 h)
    simp [hp, hp2]

theorem filterLoop_eq (rules : ignoreRules) (stats acc : List statistic) :
    filterLoop rules stats acc
      = acc ++ stats.filter (fun s => !(ignoreRules.Match rules s)) := by
  induction stats generalizing acc with
  | nil => simp [filterLoop]
  | cons s rest ih =>
    by_cases h : ignoreRules.Match rules s = true
    · simp [filterLoop, h, ih]
    · simp [filterLoop, h, ih]


theorem scanLoop_done (lines : List GoString) (stats acc : List statistic)
    (h : List.Forall₂ ParsesTo lines stats) :
    scanLoop lines acc = Scan.done (acc ++ stats) := by
  induction h generalizing acc with
  | nil => simp [scanLoop]
  | cons h1 _ ih =>
    unfold ParsesTo at h1
    simp [scanLoop, h1, ih]

/-- Claim C1: `ignoreRules.Match(R, S)` is true exactly when some rule of `R` has a
package name that is a leading part of the package name of `S` and a function
name that is `*` or the function name of `S`. -/
theorem ignoreRules_Match_iff_exists (R : ignoreRules) (S : statistic) :
    ignoreRules.Match R S = true ↔
      ∃ r ∈ R, r.PackageName <+: S.PackageName ∧
        (r.FuncName = "*".toList ∨ r.FuncName = S.FuncName) := by
  induction R with
  | nil => simp [ignoreRules.Match]
  | cons r rs ih =>
    unfold ignoreRules.Match
    by_cases h : r.Match S = true
    · simp only [h, if_true, List.mem_cons, true_iff]
      exact ⟨r, Or.inl rfl, (ignoreRule_Match_iff r S).1 h⟩
    · have h2 := fun hx => h ((ignoreRule_Match_iff r S).2 hx)
      rw [Bool.not_eq_true] at h
      rw [h]
      simp only [Bool.false_eq_true, if_false, ih, List.mem_cons]
      constructor
      · rintro ⟨x, hx, hm⟩
        exact ⟨x, Or.inr hx, hm⟩
      · rintro ⟨x, hx | hx, hm⟩
        · subst hx
          exact absurd hm h2
        · exact ⟨x, hx, hm⟩


theorem scanLoop_fatal (pre post : List GoString) (bad : GoString) (acc : List statistic)
    (st : statistic) (e : GoError) (hpre : ∀ l ∈ pre, ∃ s, ParsesTo l s)
    (hbad : statistic.FromLine statistic.zero bad = Call.returned st (some e)) :
    scanLoop (pre ++ bad :: post) acc = Scan.fatal e := by
  induction pre generalizing acc with
  | nil => simp [scanLoop, hbad]
  | cons l ls ih =>
    obtain ⟨s, hs⟩ := hpre l (List.mem_cons_self _ _)
    unfold ParsesTo at hs
    have ih2 := ih (acc ++ [s]) (fun x hx => hpre x (List.mem_cons_of_mem _ hx))
    simp only [List.cons_append, scanLoop, hs]
    exact ih2

theorem configFromFile_cases (gcfg : Except GoError gitconfig) :
    (∃ c e, configFromFile gcfg = (c, some e)) ∨ (∃ c, configFromFile gcfg = (some c, none)) := by
  cases gcfg with
  | error e => exact Or.inl ⟨none, e, rfl⟩
  | ok g =>
    cases h : (configLoop g.Ignores { Ignores := [] }).2 with
    | none =>
      exact Or.inr ⟨(configLoop g.Ignores { Ignores := [] }).1, by simp [configFromFile, h]⟩
    | some e =>
      exact Or.inl ⟨some (configLoop g.Ignores { Ignores := [] }).1, e,
        by simp [configFromFile, h]⟩

theorem main_of_config_error (args : List GoString) (gcfg : Except GoError gitconfig)
    (lines : List GoString) (scanErr : Option GoError) (c : Option configuration) (e : GoError)
    (h : configFromFile gcfg = (c, some e)) :
    main args gcfg lines scanErr = { stdout := [], status := 1 } := by
  unfold main
  rw [h]
  split
  · rfl
  · cases c <;> rfl

theorem main_of_config (gcfg : Except GoError gitconfig)
    (lines : List GoString) (scanErr : Option GoError) (config : configuration)
    (h : configFromFile gcfg = (some config, none)) :
    main [] gcfg lines scanErr = mainLoaded config lines scanErr := by
  unfold main
  rw [h]
  rfl

/-- Claim C4, amended: when loading the configuration returns an error, or
`FromLine` returns an error for an input line whose predecessors all parse, the
process ends with exit status 1, the status of `log.Fatal`, and has written
nothing to standard output. -/
theorem fatal_error_exits_one (args : List GoString) (gcfg : Except GoError gitconfig)
    (lines : List GoString) (scanErr : Option GoError)
    (h : (configFromFile gcfg).2 ≠ none ∨
      ∃ pre bad post st e, lines = pre ++ bad :: post ∧ (∀ l ∈ pre, ∃ s, ParsesTo l s) ∧
        statistic.FromLine statistic.zero bad = Call.returned st (some e)) :
    main args gcfg lines scanErr = { stdout := [], status := 1 } := by
  rcases configFromFile_cases gcfg with ⟨c, e, hc⟩ | ⟨c, hc⟩
  · exact main_of_config_error args gcfg lines scanErr c e hc
  · rcases h with h | ⟨pre, bad, post, st, e, hl, hpre, hbad⟩
    · rw [hc] at h
      exact absurd rfl h
    · unfold main
      split
      · rfl
      · rw [hc]
        simp only [mainLoaded, hl, scanLoop_fatal pre post bad [] st e hpre hbad]
        rfl

/-- Claim C5: when every input line parses, the run ends with exit status 1
exactly when some parsed statistic is not ignored; otherwise it ends with exit
status 0 and prints nothing.  An empty input gives no output and status 0
whatever the rules are.  The run is the body of `main` that follows the
loading of the rules, which is all of `main` when the program has no
positional argument and the rules load. -/
theorem exit_status_iff_kept (rules : ignoreRules) (lines : List GoString)
    (stats : List statistic) (h : List.Forall₂ ParsesTo lines stats) :
    ((mainLoaded { Ignores := rules } lines none).status = 1 ↔
        ∃ s ∈ stats, ignoreRules.Match rules s = false) ∧
    ((¬ ∃ s ∈ stats, ignoreRules.Match rules s = false) →
        mainLoaded { Ignores := rules } lines none = { stdout := [], status := 0 }) ∧
    mainLoaded { Ignores := rules } [] none = { stdout := [], status := 0 } ∧
    (∀ gcfg, configFromFile gcfg = (some { Ignores := rules }, none) →
        main [] gcfg lines none = mainLoaded { Ignores := rules } lines none) := by
  have hscan := scanLoop_done lines stats [] h
  simp only [List.nil_append] at hscan
  have hkept : filteredStats rules stats
      = stats.filter (fun s => !(ignoreRules.Match rules s)) := by
    simp [filteredStats, filterLoop_eq]
  have hlen : (0 < (stats.filter (fun s => !(ignoreRules.Match rules s))).length) ↔
      ∃ s ∈ stats, ignoreRules.Match rules s = false := by
    rw [List.length_pos_iff_exists_mem]
    simp [List.mem_filter]
  refine ⟨?_, ?_, ?_, fun gcfg hg => main_of_config gcfg lines none _ hg⟩
  · simp only [mainLoaded, hscan, hkept]
    by_cases hk : 0 < (stats.filter (fun s => !(ignoreRules.Match rules s))).length
    · simp only [gt_iff_lt, hk, if_true, true_iff]
      exact hlen.1 hk
    · have hn := fun hx => hk (hlen.2 hx)
      simp only [gt_iff_lt, hk, if_false]
      constructor
      · intro h0
        exact absurd h0 (by decide)
      · intro hx
        exact absurd hx hn
  · intro hn
    have hk : ¬ 0 < (stats.filter (fun s => !(ignoreRules.Match rules s))).length :=
      fun hx => hn (hlen.1 hx)
    simp only [mainLoaded, hscan, hkept, gt_iff_lt, hk, if_false]
  · rfl

theorem mainLoaded_stdout (rules : ignoreRules) (lines : List GoString)
    (stats : List statistic) (h : List.Forall₂ ParsesTo lines stats) :
    (mainLoaded { Ignores := rules } lines none).stdout
      = (stats.filter (fun s => !(ignoreRules.Match rules s))).map statistic.String := by
  have hscan := scanLoop_done lines stats [] h
  simp only [List.nil_append] at hscan
  have hkept : filteredStats rules stats
      = stats.filter (fun s => !(ignoreRules.Match rules s)) := by
    simp [filteredStats, filterLoop_eq]
  simp only [mainLoaded, hscan, hkept]
  cases hf : stats.filter (fun s => !(ignoreRules.Match rules s)) with
  | nil => rfl
  | cons s rest => simp

/-- Claim C6: the sequence the driver keeps and reports is the parsed sequence
without the statistics that the rules match, in the order of the input: it is
the filter of the parsed sequence by `!Match`, hence a subsequence of it, with
the statistics that are not ignored as its members; and what the driver
writes to standard output, for lines that parse into `stats`, is the
rendering of that kept sequence, record by record and in that order, also
for `main` itself once the rules have loaded. -/
theorem filteredStats_eq_filter (rules : ignoreRules) (stats : List statistic)
    (lines : List GoString) :
    filteredStats rules stats = stats.filter (fun s => !(ignoreRules.Match rules s)) ∧
    List.Sublist (filteredStats rules stats) stats ∧
    (∀ s, s ∈ filteredStats rules stats ↔ s ∈ stats ∧ ignoreRules.Match rules s = false) ∧
    (∀ s, (filteredStats rules stats).count s
        = if ignoreRules.Match rules s = true then 0 else stats.count s) ∧
    (List.Forall₂ ParsesTo lines stats →
      (mainLoaded { Ignores := rules } lines none).stdout
        = (stats.filter (fun s => !(ignoreRules.Match rules s))).map statistic.String) ∧
    (List.Forall₂ ParsesTo lines stats →
      ∀ gcfg, configFromFile gcfg = (some { Ignores := rules }, none) →
        (main [] gcfg lines none).stdout
          = (stats.filter (fun s => !(ignoreRules.Match rules s))).map statistic.String) := by
  have hkept : filteredStats rules stats
      = stats.filter (fun s => !(ignoreRules.Match rules s)) := by
    simp [filteredStats, filterLoop_eq]
  refine ⟨hkept, ?_, ?_, ?_, mainLoaded_stdout rules lines stats, fun h gcfg hg => ?_⟩
  rotate_left 3
  · rw [main_of_config gcfg lines none _ hg]
    exact mainLoaded_stdout rules lines stats h
  · rw [hkept]
    exact List.filter_sublist _
  · intro s
    rw [hkept]
    simp [List.mem_filter]
  · intro s
    rw [hkept]
    by_cases hm : ignoreRules.Match rules s = true
    · rw [if_pos hm]
      apply List.count_eq_zero_of_not_mem
      simp [List.mem_filter, hm]
    · rw [if_neg hm]
      simp only [List.count, List.countP_filter]
      congr 1
      funext a
      by_cases ha : a = s
      · subst ha
        simp [hm]
      · simp [ha]


theorem Split_ne_nil (sep : Char) (s : GoString) : Split sep s ≠ [] := by
  cases s with
  | nil => simp [Split]
  | cons c cs =>
    unfold Split
    split
    · simp
    · split <;> simp

theorem Split_append_sep (sep : Char) (a b : GoString) :
    Split sep (a ++ sep :: b) = Split sep a ++ Split sep b := by
  induction a with
  | nil => simp [Split]
  | cons c cs ih =>
    by_cases hc : c = sep
    · simp [Split, hc, ih]
    · cases hs : Split sep cs with
      | nil => exact absurd hs (Split_ne_nil sep cs)
      | cons t ts =>
        have hstep : ∀ x : GoString, Split sep (c :: x) =
            match Split sep x with
            | [] => [[c]]
            | t :: ts => (c :: t) :: ts := by
          intro x
          simp [Split, hc]
        rw [List.cons_append, hstep, hstep, ih, hs]
        rfl

theorem FromText_append (p : Position) (pos extra : GoString)
    (h : 3 ≤ (Split ':' pos).length) :
    position.FromText p (pos ++ ':' :: extra) = position.FromText p pos := by
  unfold position.FromText
  simp only [Split_append_sep]
  rw [List.getElem?_append_left (show 0 < (Split ':' pos).length by omega),
    List.getElem?_append_left (show 1 < (Split ':' pos).length by omega),
    List.getElem?_append_left (show 2 < (Split ':' pos).length by omega)]

theorem FromLine_append (stat : statistic) (line extra : GoString)
    (h : 4 ≤ (Split ' ' line).length) :
    statistic.FromLine stat (line ++ ' ' :: extra) = statistic.FromLine stat line := by
  unfold statistic.FromLine
  simp only [Split_append_sep]
  rw [List.getElem?_append_left (show 0 < (Split ' ' line).length by omega),
    List.getElem?_append_left (show 1 < (Split ' ' line).length by omega),
    List.getElem?_append_left (show 2 < (Split ' ' line).length by omega),
    List.getElem?_append_left (show 3 < (Split ' ' line).length by omega)]

theorem FromText_of_parts (p : Position) (pos file o l : GoString)
    (hpos : Split ':' pos = [file, o, l]) :
    position.FromText p pos =
      match (Atoi o).2 with
      | some e => Call.returned { p with Filename := file, Offset := (Atoi o).1 }
          (some (GoError.num e))
      | none =>
        match (Atoi l).2 with
        | some e =>
          Call.returned { p with Filename := file, Offset := (Atoi o).1, Line := (Atoi l).1 }
            (some (GoError.num e))
        | none =>
          Call.returned { p with Filename := file, Offset := (Atoi o).1, Line := (Atoi l).1 }
            none := by
  unfold position.FromText
  simp only [hpos, List.getElem?_cons_zero, List.getElem?_cons_succ]

/-- Claim C8, amended: `FromLine` reads the first four tokens of the line and
`FromText` the first three parts of the position, and both ignore what
follows: on a line of at least four tokens, a space and any further text
leave the result of `FromLine` as it is, and on a position of at least three
parts, a colon and any further text leave the result of `FromText` as it is. -/
theorem FromLine_ignores_further_tokens (stat : statistic) (p : Position)
    (line pos extra : GoString) :
    (4 ≤ (Split ' ' line).length →
      statistic.FromLine stat (line ++ ' ' :: extra) = statistic.FromLine stat line) ∧
    (3 ≤ (Split ':' pos).length →
      position.FromText p (pos ++ ':' :: extra) = position.FromText p pos) :=
  ⟨FromLine_append stat line extra, FromText_append p pos extra⟩

/-- Claim C9, amended: on a line of four tokens whose position has three parts,
`FromLine` returns an error when the complexity, the offset or the line is not
a base-10 integer that an `int` holds, and returns no error when all three
are; the statistic then has the values of the six tokens in `Complexity`,
`PackageName`, `FuncName`, `Pos.Filename`, `Pos.Offset` and `Pos.Line`. -/
theorem FromLine_of_tokens (stat : statistic) (line c p f pos file o l : GoString)
    (hline : Split ' ' line = [c, p, f, pos]) (hpos : Split ':' pos = [file, o, l]) :
    ((base10Int c = none ∨ base10Int o = none ∨ base10Int l = none) →
      ∃ st e, statistic.FromLine stat line = Call.returned st (some e)) ∧
    (∀ n a b, base10Int c = some n → base10Int o = some a → base10Int l = some b →
      statistic.FromLine stat line = Call.returned
        { PackageName := p, FuncName := f, Complexity := n,
          Pos := { stat.Pos with Filename := file, Offset := a, Line := b } } none) := by
  have hL : statistic.FromLine stat line =
      match (Atoi c).2 with
      | some e => Call.returned { stat with Complexity := (Atoi c).1 } (some (GoError.num e))
      | none =>
        match position.FromText stat.Pos pos with
        | Call.panicked => Call.panicked
        | Call.returned q err =>
          Call.returned { PackageName := p, FuncName := f, Complexity := (Atoi c).1, Pos := q }
            err := by
    unfold statistic.FromLine
    simp only [hline, List.getElem?_cons_zero, List.getElem?_cons_succ]
  rw [hL, FromText_of_parts stat.Pos pos file o l hpos]
  constructor
  · intro h
    cases hc : base10Int c with
    | none =>
      obtain ⟨e, he⟩ := Atoi_error_of_not_base10Int c hc
      rw [he]
      exact ⟨_, _, rfl⟩
    | some n =>
      rw [Atoi_of_base10Int c n hc]
      cases ho : base10Int o with
      | none =>
        obtain ⟨e, he⟩ := Atoi_error_of_not_base10Int o ho
        rw [he]
        exact ⟨_, _, rfl⟩
      | some a =>
        rw [Atoi_of_base10Int o a ho]
        cases hl : base10Int l with
        | none =>
          obtain ⟨e, he⟩ := Atoi_error_of_not_base10Int l hl
          rw [he]
          exact ⟨_, _, rfl⟩
        | some b =>
          rw [hc, ho, hl] at h
          simp at h
  · intro n a b hc ho hl
    rw [Atoi_of_base10Int c n hc, Atoi_of_base10Int o a ho, Atoi_of_base10Int l b hl]


/-! ## The claims at concrete inputs -/

/-- Claim C2, at the record of the specification: the line parses into
`sampleStat`, whose rendering is `15 database Query file.go:42`, without the
offset; `FromLine` panics on that rendering, as its position has two parts
only, so parsing the rendering does not give the statistic back. -/
theorem roundtrip_breaks_on_sample :
    statistic.FromLine statistic.zero sampleLine = Call.returned sampleStat none ∧
    statistic.String sampleStat = "15 database Query file.go:42".toList ∧
    statistic.FromLine statistic.zero (statistic.String sampleStat) = Call.panicked := by
  decide

/-- Claim C3, at the record of the specification: without rules the run prints
`15 database Query file.go:42` for the input line
`15 database Query file.go:120:42`, which is another text. -/
theorem printed_line_drops_offset :
    main [] noRules [sampleLine] none
      = { stdout := ["15 database Query file.go:42".toList], status := 1 } ∧
    "15 database Query file.go:42".toList ≠ sampleLine := by
  decide

/-- Claim C4, as stated, fails: `FromLine` returns an error for the line
`abc database Query file.go:120:42` and the run ends with exit status 1. -/
theorem fatal_status_is_one_on_abc :
    statistic.FromLine statistic.zero abcLine
      = Call.returned statistic.zero
          (some (GoError.num ⟨"Atoi".toList, "abc".toList, NumErrKind.ErrSyntax⟩)) ∧
    (main [] noRules [abcLine] none).status = 1 ∧
    (main [] (Except.error (GoError.external "no such file".toList)) [] none).status = 1 := by
  decide

/-- Claim C4, amended, at a concrete run: the first line parses, the second is
rejected, and the run ends with status 1 and no output. -/
theorem fatal_error_exits_one_witness :
    main [] noRules [sampleLine, abcLine] none = { stdout := [], status := 1 } :=
  fatal_error_exits_one [] noRules [sampleLine, abcLine] none
    (Or.inr ⟨[sampleLine], abcLine, [], statistic.zero,
      GoError.num ⟨"Atoi".toList, "abc".toList, NumErrKind.ErrSyntax⟩, rfl,
      fun l hl => ⟨sampleStat, by
        rw [List.mem_singleton] at hl
        subst hl
        unfold ParsesTo
        decide⟩,
      by decide⟩)

/-- Claim C5 at the record of the specification, without rules: the line
parses, the statistic is not ignored, and the run ends with status 1. -/
theorem exit_status_iff_kept_witness :
    List.Forall₂ ParsesTo [sampleLine] [sampleStat] ∧
    (mainLoaded { Ignores := [] } [sampleLine] none).status = 1 :=
  have h : List.Forall₂ ParsesTo [sampleLine] [sampleStat] :=
    List.Forall₂.cons (by unfold ParsesTo; decide) List.Forall₂.nil
  ⟨h, (exit_status_iff_kept [] [sampleLine] [sampleStat] h).1.2
    ⟨sampleStat, List.mem_singleton.2 rfl, by decide⟩⟩

/-- Claim C6 at a run of three records and the rule of package `data`: the two
records of package `database` are ignored and the run prints the remaining
one only; without that rule it prints them all, in the order of the input. -/
theorem filteredStats_eq_filter_witness :
    (main [] (Except.ok { Ignores := ["`data`.*".toList] })
        [sampleLine, "7 net Dial dial.go:3:1".toList, sampleLine] none).stdout
      = [statistic.String
          { PackageName := "net".toList, FuncName := "Dial".toList, Complexity := 7,
            Pos := { Filename := "dial.go".toList, Offset := 3, Line := 1, Column := 0 } }] ∧
    (mainLoaded { Ignores := [] }
        [sampleLine, "7 net Dial dial.go:3:1".toList] none).stdout
      = [statistic.String sampleStat,
         statistic.String
          { PackageName := "net".toList, FuncName := "Dial".toList, Complexity := 7,
            Pos := { Filename := "dial.go".toList, Offset := 3, Line := 1, Column := 0 } }] :=
  ⟨(filteredStats_eq_filter [⟨"data".toList, "*".toList⟩]
      [sampleStat,
       { PackageName := "net".toList, FuncName := "Dial".toList, Complexity := 7,
         Pos := { Filename := "dial.go".toList, Offset := 3, Line := 1, Column := 0 } },
       sampleStat]
      [sampleLine, "7 net Dial dial.go:3:1".toList, sampleLine]).2.2.2.2.2
      (List.Forall₂.cons (by unfold ParsesTo; decide)
        (List.Forall₂.cons (by unfold ParsesTo; decide)
          (List.Forall₂.cons (by unfold ParsesTo; decide) List.Forall₂.nil)))
      (Except.ok { Ignores := ["`data`.*".toList] }) (by decide),
   (filteredStats_eq_filter []
      [sampleStat,
       { PackageName := "net".toList, FuncName := "Dial".toList, Complexity := 7,
         Pos := { Filename := "dial.go".toList, Offset := 3, Line := 1, Column := 0 } }]
      [sampleLine, "7 net Dial dial.go:3:1".toList]).2.2.2.2.1
      (List.Forall₂.cons (by unfold ParsesTo; decide)
        (List.Forall₂.cons (by unfold ParsesTo; decide) List.Forall₂.nil))⟩

/-- Claim C7, at the line of the claim and at a line of one token: `FromLine`
does not return, it panics on an index out of range, and the run ends with the
status of a panic. -/
theorem FromLine_panics_on_short_line :
    statistic.FromLine statistic.zero "15  database Query file.go:120:42".toList
      = Call.panicked ∧
    (Split ':' "Query".toList).length = 1 ∧
    statistic.FromLine statistic.zero "15".toList = Call.panicked ∧
    (Split ' ' "15".toList).length = 1 ∧
    main [] noRules ["15".toList] none = { stdout := [], status := 2 } := by
  decide

/-- Claim C8, as stated, fails: a line of five tokens, a line that ends in a
space and a position of four parts are all accepted. -/
theorem FromLine_accepts_further_tokens :
    (Split ' ' "15 database Query file.go:120:42 extra".toList).length = 5 ∧
    statistic.FromLine statistic.zero "15 database Query file.go:120:42 extra".toList
      = Call.returned sampleStat none ∧
    statistic.FromLine statistic.zero "15 database Query file.go:120:42 ".toList
      = Call.returned sampleStat none ∧
    (Split ':' "file.go:120:42:7".toList).length = 4 ∧
    statistic.FromLine statistic.zero "15 database Query file.go:120:42:7".toList
      = Call.returned sampleStat none := by
  decide

/-- Claim C8, amended, at the record of the specification. -/
theorem FromLine_ignores_further_tokens_witness :
    statistic.FromLine statistic.zero (sampleLine ++ ' ' :: "extra".toList)
      = statistic.FromLine statistic.zero sampleLine ∧
    position.FromText statistic.zero.Pos ("file.go:120:42".toList ++ ':' :: "7".toList)
      = position.FromText statistic.zero.Pos "file.go:120:42".toList :=
  ⟨(FromLine_ignores_further_tokens statistic.zero statistic.zero.Pos sampleLine
      "file.go:120:42".toList "extra".toList).1 (by decide),
   (FromLine_ignores_further_tokens statistic.zero statistic.zero.Pos sampleLine
      "file.go:120:42".toList "7".toList).2 (by decide)⟩

/-- Claim C9, as stated, fails: the three numbers of the line
`99999999999999999999 database Query file.go:120:42` are base-10 integers, and
`FromLine` returns an error, the first being out of the range of `int`. -/
theorem FromLine_rejects_large_integer :
    Split ' ' "99999999999999999999 database Query file.go:120:42".toList
      = ["99999999999999999999".toList, "database".toList, "Query".toList,
          "file.go:120:42".toList] ∧
    Split ':' "file.go:120:42".toList = ["file.go".toList, "120".toList, "42".toList] ∧
    decimalInt "99999999999999999999".toList = some 99999999999999999999 ∧
    decimalInt "120".toList = some 120 ∧
    decimalInt "42".toList = some 42 ∧
    statistic.FromLine statistic.zero
        "99999999999999999999 database Query file.go:120:42".toList
      = Call.returned { statistic.zero with Complexity := 9223372036854775807 }
          (some (GoError.num
            ⟨"Atoi".toList, "99999999999999999999".toList, NumErrKind.ErrRange⟩)) := by
  decide

/-- Claim C9, amended, at the two records of the specification: the line with
the complexity `abc` is rejected, the line with the complexity `15` gives
`sampleStat`. -/
theorem FromLine_of_tokens_witness :
    (∃ st e, statistic.FromLine statistic.zero abcLine = Call.returned st (some e)) ∧
    statistic.FromLine statistic.zero sampleLine = Call.returned sampleStat none :=
  ⟨(FromLine_of_tokens statistic.zero abcLine "abc".toList "database".toList "Query".toList
      "file.go:120:42".toList "file.go".toList "120".toList "42".toList
      (by decide) (by decide)).1 (Or.inl (by decide)),
   (FromLine_of_tokens statistic.zero sampleLine "15".toList "database".toList "Query".toList
      "file.go:120:42".toList "file.go".toList "120".toList "42".toList
      (by decide) (by decide)).2 15 120 42 (by decide) (by decide) (by decide)⟩

/-- Claim C10, at the raw value of the claim: the pattern matches a backtick,
`pkg`, a backtick and `xFunc`, and the rule loader accepts this raw value as the
rule of package `pkg` and function `Func`, although the character that follows
the closing backtick is not a dot; the same rule comes from the raw value with
a dot, and the raw value `BadFormat.NoBackticks` is rejected. -/
theorem loader_accepts_any_character_for_dot :
    ignorePattern.FindAllStringSubmatch "`pkg`xFunc".toList
      = [["`pkg`xFunc".toList, "pkg".toList, "Func".toList]] ∧
    configFromFile (Except.ok { Ignores := ["`pkg`xFunc".toList] })
      = (some { Ignores := [⟨"pkg".toList, "Func".toList⟩] }, none) ∧
    configFromFile (Except.ok { Ignores := ["`pkg`.Func".toList] })
      = (some { Ignores := [⟨"pkg".toList, "Func".toList⟩] }, none) ∧
    (configFromFile (Except.ok { Ignores := ["BadFormat.NoBackticks".toList] })).2
      = some (formatError "BadFormat.NoBackticks".toList) := by
  decide


/-! ## The filter engine: further properties -/

theorem ignoreRules_Match_eq_any (R : ignoreRules) (S : statistic) :
    ignoreRules.Match R S = R.any (fun r => r.Match S) := by
  induction R with
  | nil => rfl
  | cons r rs ih =>
    unfold ignoreRules.Match
    cases h : r.Match S <;> simp [h, ih]

theorem ignoreRules_Match_append (R1 R2 : ignoreRules) (S : statistic) :
    ignoreRules.Match (R1 ++ R2) S = (ignoreRules.Match R1 S || ignoreRules.Match R2 S) := by
  simp [ignoreRules_Match_eq_any, List.any_append]

/-- Claim C12: a rule with the function name `*` matches every statistic whose
package name is the rule's package name or starts with it, whatever the
function name of the statistic. -/
theorem wildcard_rule_matches (p : GoString) (S : statistic)
    (h : p <+: S.PackageName) :
    ignoreRule.Match { PackageName := p, FuncName := "*".toList } S = true :=
  (ignoreRule_Match_iff _ S).2 ⟨h, Or.inl rfl⟩

/-- Claim C12 at the rule of package `data`: it matches the statistics of the
packages `data` and `database`, of any function. -/
theorem wildcard_rule_matches_witness :
    ignoreRule.Match ⟨"data".toList, "*".toList⟩ (statOf "database" "Query") = true ∧
    ignoreRule.Match ⟨"data".toList, "*".toList⟩ (statOf "data" "") = true :=
  ⟨wildcard_rule_matches "data".toList (statOf "database" "Query")
      ⟨"base".toList, by decide⟩,
   wildcard_rule_matches "data".toList (statOf "data" "") ⟨[], by decide⟩⟩

/-- Claim C13, amended: matching on the package is a literal test from the first
character on: a rule does not match a statistic whose package name does not
start with the package name of the rule, wherever else that name occurs in
it and whatever the function names are. -/
theorem no_match_without_leading_package (r : ignoreRule) (S : statistic)
    (h : ¬ r.PackageName <+: S.PackageName) :
    r.Match S = false := by
  rw [← Bool.not_eq_true]
  exact fun hm => h ((ignoreRule_Match_iff r S).1 hm).1

/-- Claim C13, the example as stated, fails: `database` does not start with
`db`, and the rule of package `db` does not match the statistic of package
`database` with the same function name. -/
theorem db_rule_misses_database :
    HasPrefix "database".toList "db".toList = false ∧
    ignoreRule.Match ⟨"db".toList, "Query".toList⟩ (statOf "database" "Query") = false := by
  decide

/-- Claim C13, amended, at the packages of the claim: the rule of package `db`
matches neither the statistic of package `mydb` nor the one of package
`database`, and the rule of package `DATA` does not match the one of package
`database`, while the rule of package `data` does. -/
theorem no_match_without_leading_package_witness :
    ignoreRule.Match ⟨"db".toList, "Query".toList⟩ (statOf "mydb" "Query") = false ∧
    ignoreRule.Match ⟨"db".toList, "Query".toList⟩ (statOf "database" "Query") = false ∧
    ignoreRule.Match ⟨"DATA".toList, "*".toList⟩ (statOf "database" "Query") = false ∧
    ignoreRule.Match ⟨"data".toList, "Query".toList⟩ (statOf "database" "Query") = true :=
  ⟨no_match_without_leading_package ⟨"db".toList, "Query".toList⟩ (statOf "mydb" "Query")
     (fun h => absurd ((HasPrefix_iff _ _).2 h) (by decide)),
   no_match_without_leading_package ⟨"db".toList, "Query".toList⟩ (statOf "database" "Query")
     (fun h => absurd ((HasPrefix_iff _ _).2 h) (by decide)),
   no_match_without_leading_package ⟨"DATA".toList, "*".toList⟩ (statOf "database" "Query")
     (fun h => absurd ((HasPrefix_iff _ _).2 h) (by decide)),
   by decide⟩

/-- Claim C14: the order of the rules does not change the result: two rule
lists that are permutations of each other match the same statistics. -/
theorem Match_of_perm (R R' : ignoreRules) (S : statistic) (h : List.Perm R R') :
    ignoreRules.Match R S = ignoreRules.Match R' S := by
  rw [ignoreRules_Match_eq_any, ignoreRules_Match_eq_any]
  induction h with
  | nil => rfl
  | cons x _ ih => simp [List.any_cons, ih]
  | swap x y l =>
    simp only [List.any_cons]
    cases ignoreRule.Match x S <;> cases ignoreRule.Match y S <;> rfl
  | trans _ _ ih1 ih2 => exact ih1.trans ih2

/-- Claim C14 at two rules in both orders. -/
theorem Match_of_perm_witness :
    ignoreRules.Match [⟨"db".toList, "Query".toList⟩, ⟨"data".toList, "*".toList⟩]
        (statOf "database" "Query")
      = ignoreRules.Match [⟨"data".toList, "*".toList⟩, ⟨"db".toList, "Query".toList⟩]
        (statOf "database" "Query") :=
  Match_of_perm _ _ _ (List.Perm.swap _ _ _)

/-- Claim C17: with no rule, `Match` is false for every statistic, the kept
sequence is the whole parsed sequence, and the run prints every parsed
record; the configuration that holds no raw value loads as the empty rule
list. -/
theorem no_rules_keep_everything (S : statistic) (stats : List statistic)
    (lines : List GoString) :
    ignoreRules.Match [] S = false ∧
    filteredStats [] stats = stats ∧
    (List.Forall₂ ParsesTo lines stats →
      (mainLoaded { Ignores := [] } lines none).stdout = stats.map statistic.String) ∧
    configFromFile (Except.ok { Ignores := [] }) = (some { Ignores := [] }, none) := by
  have hkept : filteredStats [] stats = stats := by
    simp [filteredStats, filterLoop_eq, ignoreRules.Match]
  refine ⟨rfl, hkept, ?_, rfl⟩
  intro h
  have hscan := scanLoop_done lines stats [] h
  simp only [List.nil_append] at hscan
  simp only [mainLoaded, hscan, hkept]
  cases stats with
  | nil => rfl
  | cons s rest => simp

/-- Claim C17 at the record of the specification: it is printed. -/
theorem no_rules_keep_everything_witness :
    (mainLoaded { Ignores := [] } [sampleLine] none).stdout
      = [statistic.String sampleStat] :=
  (no_rules_keep_everything sampleStat [sampleStat] [sampleLine]).2.2.1
    (List.Forall₂.cons (by unfold ParsesTo; decide) List.Forall₂.nil)

/-- Claim C19: `Match` on the concatenation of two rule lists is the
disjunction of `Match` on each; hence a statistic that a rule list ignores is
still ignored when rules are added, before or after. -/
theorem Match_append_eq_or (R1 R2 : ignoreRules) (S : statistic) :
    ignoreRules.Match (R1 ++ R2) S = (ignoreRules.Match R1 S || ignoreRules.Match R2 S) ∧
    (ignoreRules.Match R1 S = true →
      ignoreRules.Match (R1 ++ R2) S = true ∧ ignoreRules.Match (R2 ++ R1) S = true) := by
  refine ⟨ignoreRules_Match_append R1 R2 S, fun h => ?_⟩
  rw [ignoreRules_Match_append, ignoreRules_Match_append, h]
  simp

/-- Claim C19 at a rule list that ignores the record of the specification. -/
theorem Match_append_eq_or_witness :
    ignoreRules.Match ([⟨"data".toList, "*".toList⟩] ++ [⟨"x".toList, "y".toList⟩]) sampleStat
        = true ∧
    ignoreRules.Match ([⟨"x".toList, "y".toList⟩] ++ [⟨"data".toList, "*".toList⟩]) sampleStat
        = true :=
  (Match_append_eq_or [⟨"data".toList, "*".toList⟩] [⟨"x".toList, "y".toList⟩] sampleStat).2
    (by decide)


/-! ## The rule loader -/

theorem FindAllStringSubmatch_cases (raw : GoString) :
    ignorePattern.FindAllStringSubmatch raw = [] ∨
      ∃ p f, ignorePattern.FindAllStringSubmatch raw = [[raw, p, f]] := by
  unfold ignorePattern.FindAllStringSubmatch
  cases raw with
  | nil => exact Or.inl rfl
  | cons q rest =>
    by_cases hq : q = backtick
    · simp only [hq, if_true]
      cases matchPackage rest with
      | none => exact Or.inl rfl
      | some pf => exact Or.inr ⟨pf.1, pf.2, rfl⟩
    · simp only [hq, if_false]
      exact Or.inl trivial

theorem configLoop_cons (raw : GoString) (rest : List GoString) (config : configuration) :
    configLoop (raw :: rest) config =
      match ruleOf raw with
      | some r => configLoop rest { Ignores := config.Ignores ++ [r] }
      | none => (config, some (formatError raw)) := by
  rcases FindAllStringSubmatch_cases raw with h | ⟨p, f, h⟩
  · simp [configLoop, ruleOf, h]
  · simp [configLoop, ruleOf, h]

theorem configLoop_ok_iff (raws : List GoString) (config : configuration) :
    (configLoop raws config).2 = none ↔ ∀ raw ∈ raws, (ruleOf raw).isSome = true := by
  induction raws generalizing config with
  | nil => simp [configLoop]
  | cons raw rest ih =>
    rw [configLoop_cons]
    cases h : ruleOf raw with
    | none => simp [h]
    | some r => simp [h, ih]

theorem configLoop_rules (raws : List GoString) (config c : configuration)
    (h : configLoop raws config = (c, none)) :
    ∃ rules, c.Ignores = config.Ignores ++ rules ∧ raws.map ruleOf = rules.map some := by
  induction raws generalizing config with
  | nil =>
    simp only [configLoop, Prod.mk.injEq, and_true] at h
    exact ⟨[], by simp [h]⟩
  | cons raw rest ih =>
    rw [configLoop_cons] at h
    cases hr : ruleOf raw with
    | none => simp [hr] at h
    | some r =>
      simp only [hr] at h
      obtain ⟨rules, h1, h2⟩ := ih _ h
      exact ⟨r :: rules, by simp [h1], by simp [hr, h2]⟩

theorem configLoop_first_bad (pre post : List GoString) (bad : GoString)
    (config : configuration) (hpre : ∀ raw ∈ pre, (ruleOf raw).isSome = true)
    (hbad : ruleOf bad = none) :
    (configLoop (pre ++ bad :: post) config).2 = some (formatError bad) := by
  induction pre generalizing config with
  | nil => simp [configLoop_cons, hbad]
  | cons raw rest ih =>
    have h1 := hpre raw (List.mem_cons_self _ _)
    rw [List.cons_append, configLoop_cons]
    cases hr : ruleOf raw with
    | none => simp [hr] at h1
    | some r =>
      simp only []
      exact ih _ (fun x hx => hpre x (List.mem_cons_of_mem _ hx))

/-- Claim C11: loading the rules succeeds exactly when every raw value matches
the pattern; the rules are then the rules of the raw values, one for each and
in their order; when a raw value does not match and those before it do, the
error names that value, and the run ends in `log.Fatal` whatever the input is,
so that no record is filtered with the rules read so far. -/
theorem rule_loading_all_or_nothing (raws : List GoString) :
    ((configFromFile (Except.ok { Ignores := raws })).2 = none ↔
        ∀ raw ∈ raws, (ruleOf raw).isSome = true) ∧
    (∀ rules, configFromFile (Except.ok { Ignores := raws }) = (some { Ignores := rules }, none) →
        raws.map ruleOf = rules.map some) ∧
    (∀ pre bad post, raws = pre ++ bad :: post →
        (∀ raw ∈ pre, (ruleOf raw).isSome = true) → ruleOf bad = none →
        (configFromFile (Except.ok { Ignores := raws })).2 = some (formatError bad) ∧
        ∀ args lines scanErr,
          main args (Except.ok { Ignores := raws }) lines scanErr
            = { stdout := [], status := 1 }) := by
  refine ⟨?_, ?_, ?_⟩
  · simp only [configFromFile]
    exact configLoop_ok_iff raws _
  · intro rules h
    simp only [configFromFile, Prod.mk.injEq, Option.some.injEq] at h
    obtain ⟨rs, h1, h2⟩ := configLoop_rules raws { Ignores := [] } { Ignores := rules }
      (Prod.ext h.1 h.2)
    simp only [List.nil_append] at h1
    rw [h2, h1]
  · intro pre bad post hraws hpre hbad
    have herr : (configFromFile (Except.ok { Ignores := raws })).2 = some (formatError bad) := by
      simp only [configFromFile, hraws]
      exact configLoop_first_bad pre post bad _ hpre hbad
    refine ⟨herr, fun args lines scanErr => ?_⟩
    exact main_of_config_error args _ lines scanErr
      (configFromFile (Except.ok { Ignores := raws })).1 (formatError bad)
      (Prod.ext rfl herr)

/-- Claim C11 at two lists of raw values: two rules load in their order, and a
raw value without backticks after a good one stops the run. -/
theorem rule_loading_all_or_nothing_witness :
    ["`a`.b".toList, "`c`.*".toList].map ruleOf
      = [some ⟨"a".toList, "b".toList⟩, some ⟨"c".toList, "*".toList⟩] ∧
    main [] (Except.ok { Ignores := ["`a`.b".toList, "BadFormat.NoBackticks".toList] })
        [sampleLine] none = { stdout := [], status := 1 } :=
  ⟨(rule_loading_all_or_nothing ["`a`.b".toList, "`c`.*".toList]).2.1
      [⟨"a".toList, "b".toList⟩, ⟨"c".toList, "*".toList⟩] (by decide),
   ((rule_loading_all_or_nothing ["`a`.b".toList, "BadFormat.NoBackticks".toList]).2.2
      ["`a`.b".toList] "BadFormat.NoBackticks".toList [] rfl (by decide) (by decide)).2
      [] [sampleLine] none⟩


/-! ## The record parser: further properties -/

theorem base10Int_range (s : GoString) (v : Int) (h : base10Int s = some v) :
    -(2 : Int) ^ 63 ≤ v ∧ v < (2 : Int) ^ 63 := by
  unfold base10Int at h
  cases hd : decimalInt s with
  | none => simp [hd] at h
  | some w =>
    simp only [hd] at h
    split_ifs at h with hr
    rw [← Option.some.inj h]
    exact hr

theorem base10Int_of_Atoi (s : GoString) (h : (Atoi s).2 = none) :
    base10Int s = some (Atoi s).1 := by
  cases hb : base10Int s with
  | none =>
    obtain ⟨e, he⟩ := Atoi_error_of_not_base10Int s hb
    rw [h] at he
    exact absurd he (by simp)
  | some v => rw [Atoi_of_base10Int s v hb]

theorem FromText_no_panic (p : Position) (pos : GoString)
    (h : 3 ≤ (Split ':' pos).length) :
    ∃ q err, position.FromText p pos = Call.returned q err ∧
      (err = none ∨ ∃ e, err = some (GoError.num e)) := by
  unfold position.FromText
  rcases hs : Split ':' pos with _ | ⟨a, _ | ⟨b, _ | ⟨c, rest⟩⟩⟩
  · rw [hs] at h; simp at h
  · rw [hs] at h; simp at h
  · rw [hs] at h; simp at h
  · simp only [List.getElem?_cons_zero, List.getElem?_cons_succ]
    cases hb : (Atoi b).2 with
    | some e => exact ⟨_, _, rfl, Or.inr ⟨e, rfl⟩⟩
    | none =>
      cases hc : (Atoi c).2 with
      | some e => exact ⟨_, _, rfl, Or.inr ⟨e, rfl⟩⟩
      | none => exact ⟨_, _, rfl, Or.inl rfl⟩

theorem FromLine_complexity (stat st : statistic) (line : GoString)
    (h : statistic.FromLine stat line = Call.returned st none) :
    ∃ c, (Split ' ' line)[0]? = some c ∧ (Atoi c).2 = none ∧ st.Complexity = (Atoi c).1 := by
  unfold statistic.FromLine at h
  rcases hs : Split ' ' line with _ | ⟨c, rest⟩
  · exact absurd hs (Split_ne_nil _ _)
  · refine ⟨c, by simp, ?_⟩
    simp only [hs, List.getElem?_cons_zero, List.getElem?_cons_succ] at h
    cases hc : (Atoi c).2 with
    | some e => simp [hc] at h
    | none =>
      refine ⟨rfl, ?_⟩
      simp only [hc] at h
      split at h
      · exact absurd h (by simp)
      · split at h
        · exact absurd h (by simp)
        · split at h
          · exact absurd h (by simp)
          · split at h
            · exact absurd h (by simp)
            · simp only [Call.returned.injEq] at h
              rw [← h.1]

/-- Claim C15, as stated, fails: the line `-5 database Query file.go:120:42` is
accepted, with the complexity `-5`. -/
theorem FromLine_accepts_negative_complexity :
    statistic.FromLine statistic.zero "-5 database Query file.go:120:42".toList
      = Call.returned { sampleStat with Complexity := -5 } none ∧
    ({ sampleStat with Complexity := -5 } : statistic).Complexity < 0 := by
  decide

/-- Claim C15, amended: the complexity of a statistic that `FromLine` produces
without error is the base-10 integer that the first token of the line
denotes, of either sign, from `-2^63` to `2^63 - 1`. -/
theorem FromLine_complexity_of_first_token (stat st : statistic) (line : GoString)
    (h : statistic.FromLine stat line = Call.returned st none) :
    ∃ c, (Split ' ' line)[0]? = some c ∧ base10Int c = some st.Complexity ∧
      -(2 : Int) ^ 63 ≤ st.Complexity ∧ st.Complexity < (2 : Int) ^ 63 := by
  obtain ⟨c, hc, ha, hv⟩ := FromLine_complexity stat st line h
  have hb := base10Int_of_Atoi c ha
  rw [← hv] at hb
  exact ⟨c, hc, hb, base10Int_range c _ hb⟩

/-- Claim C15, amended, at the record of the specification. -/
theorem FromLine_complexity_of_first_token_witness :
    ∃ c, (Split ' ' sampleLine)[0]? = some c ∧ base10Int c = some sampleStat.Complexity ∧
      -(2 : Int) ^ 63 ≤ sampleStat.Complexity ∧ sampleStat.Complexity < (2 : Int) ^ 63 :=
  FromLine_complexity_of_first_token statistic.zero sampleStat sampleLine (by decide)

/-- Claim C16, as stated, fails: with one positional argument the run ends with
exit status 1, not 2. -/
theorem positional_argument_status_is_one :
    (main ["extra".toList] noRules [sampleLine] none).status = 1 ∧
    (main ["extra".toList] noRules [sampleLine] none).status ≠ 2 := by
  decide

/-- Claim C16, amended: with one or more positional arguments the run ends in
`log.Fatal`, with exit status 1 and nothing on standard output, whatever the
configuration file and the input hold: neither is looked at. -/
theorem positional_arguments_exit_one (args : List GoString) (h : args ≠ [])
    (gcfg : Except GoError gitconfig) (lines : List GoString) (scanErr : Option GoError) :
    main args gcfg lines scanErr = { stdout := [], status := 1 } := by
  unfold main
  rw [if_pos (List.length_pos.2 h)]
  rfl

/-- Claim C16, amended, at one positional argument, a configuration file that
cannot be read and a line that does not parse. -/
theorem positional_arguments_exit_one_witness :
    main ["extra".toList] (Except.error (GoError.external "no such file".toList))
        ["15".toList] none = { stdout := [], status := 1 } :=
  positional_arguments_exit_one ["extra".toList] (by decide) _ _ _

/-- Claim C20: on a line of at least four tokens whose fourth token has at
least three parts, no index of `FromLine` or `FromText` is out of range: the
call returns, with no error or with the error of an integer conversion. -/
theorem FromLine_returns_of_enough_tokens (stat : statistic) (line : GoString)
    (h4 : 4 ≤ (Split ' ' line).length)
    (h3 : ∀ pos, (Split ' ' line)[3]? = some pos → 3 ≤ (Split ':' pos).length) :
    ∃ st err, statistic.FromLine stat line = Call.returned st err ∧
      (err = none ∨ ∃ e, err = some (GoError.num e)) := by
  unfold statistic.FromLine
  rcases hs : Split ' ' line with _ | ⟨a, _ | ⟨b, _ | ⟨c, _ | ⟨d, rest⟩⟩⟩⟩
  · rw [hs] at h4; simp at h4
  · rw [hs] at h4; simp at h4
  · rw [hs] at h4; simp at h4
  · rw [hs] at h4; simp at h4
  · simp only [List.getElem?_cons_zero, List.getElem?_cons_succ]
    cases ha : (Atoi a).2 with
    | some e => exact ⟨_, _, rfl, Or.inr ⟨e, rfl⟩⟩
    | none =>
      have hd := h3 d (by rw [hs]; simp)
      obtain ⟨q, err, hq, herr⟩ := FromText_no_panic stat.Pos d hd
      simp only [hq]
      exact ⟨_, _, rfl, herr⟩

/-- Claim C20 at the two records of the specification: both calls return, one
without error, one with the error of `Atoi`. -/
theorem FromLine_returns_of_enough_tokens_witness :
    (∃ st err, statistic.FromLine statistic.zero sampleLine = Call.returned st err ∧
      (err = none ∨ ∃ e, err = some (GoError.num e))) ∧
    (∃ st err, statistic.FromLine statistic.zero abcLine = Call.returned st err ∧
      (err = none ∨ ∃ e, err = some (GoError.num e))) :=
  ⟨FromLine_returns_of_enough_tokens statistic.zero sampleLine (by decide)
      (fun pos hp => by
        have : pos = "file.go:120:42".toList := by
          have h0 : (Split ' ' sampleLine)[3]? = some "file.go:120:42".toList := by decide
          rw [h0] at hp
          exact (Option.some.inj hp).symm
        subst this
        decide),
   FromLine_returns_of_enough_tokens statistic.zero abcLine (by decide)
      (fun pos hp => by
        have : pos = "file.go:120:42".toList := by
          have h0 : (Split ' ' abcLine)[3]? = some "file.go:120:42".toList := by decide
          rw [h0] at hp
          exact (Option.some.inj hp).symm
        subst this
        decide)⟩


/-! ## The captures of `ignorePattern` -/

theorem dot_backtick : dot backtick = true := by decide

theorem matchFunc_some (s f : GoString) (h : matchFunc s = some f) :
    f = s ∧ s ≠ [] ∧ s.all dot = true := by
  unfold matchFunc at h
  split_ifs at h with hc
  exact ⟨(Option.some.inj h).symm, hc.1, hc.2⟩

theorem matchAfterPackage_some (s f : GoString) (h : matchAfterPackage s = some f) :
    ∃ c, s = backtick :: c :: f ∧ dot c = true ∧ f ≠ [] ∧ f.all dot = true := by
  rcases s with _ | ⟨q, _ | ⟨c, rest⟩⟩
  · simp [matchAfterPackage] at h
  · simp [matchAfterPackage] at h
  · simp only [matchAfterPackage] at h
    split_ifs at h with hc
    obtain ⟨h1, h2, h3⟩ := matchFunc_some rest f h
    subst h1
    exact ⟨c, by rw [hc.1], hc.2, h2, h3⟩

theorem matchPackage_cons (x : Char) (xs : GoString) :
    matchPackage (x :: xs) =
      if dot x = true then
        match matchPackage xs with
        | some (p, f) => some (x :: p, f)
        | none =>
          match matchAfterPackage xs with
          | some f => some ([x], f)
          | none => none
      else none := by
  rw [matchPackage]

theorem matchPackage_sound (s p f : GoString) (h : matchPackage s = some (p, f)) :
    p ≠ [] ∧ f ≠ [] ∧ s.all dot = true ∧ ∃ c, s = p ++ backtick :: c :: f := by
  induction s generalizing p with
  | nil => simp [matchPackage] at h
  | cons x xs ih =>
    rw [matchPackage_cons] at h
    split_ifs at h with hx
    cases hm : matchPackage xs with
    | some pf =>
      obtain ⟨p0, f0⟩ := pf
      simp only [hm, Option.some.injEq, Prod.mk.injEq] at h
      obtain ⟨hp0, hf0⟩ := h
      subst hf0
      obtain ⟨h1, h2, h3, c, h4⟩ := ih p0 hm
      rw [← hp0]
      refine ⟨List.cons_ne_nil _ _, h2, ?_, c, ?_⟩
      · simp only [List.all_cons, hx, h3, Bool.and_self]
      · rw [h4, List.cons_append]
    | none =>
      simp only [hm] at h
      cases ha : matchAfterPackage xs with
      | none => simp [ha] at h
      | some f1 =>
        simp only [ha, Option.some.injEq, Prod.mk.injEq] at h
        obtain ⟨c, h1, h2, h3, h4⟩ := matchAfterPackage_some xs f1 ha
        rw [← h.1, ← h.2]
        refine ⟨List.cons_ne_nil _ _, h3, ?_, c, ?_⟩
        · rw [h1]
          simp only [List.all_cons, hx, dot_backtick, h2, h4, Bool.and_self]
        · rw [h1]
          rfl

theorem matchPackage_complete (p : GoString) (c : Char) (f s : GoString)
    (hp : p ≠ []) (hf : f ≠ []) (hs : s = p ++ backtick :: c :: f)
    (hdot : s.all dot = true) : matchPackage s ≠ none := by
  induction p generalizing s with
  | nil => exact absurd rfl hp
  | cons x p0 ih =>
    subst hs
    simp only [List.cons_append, List.all_cons, Bool.and_eq_true] at hdot
    rw [List.cons_append, matchPackage_cons, if_pos hdot.1]
    cases hm : matchPackage (p0 ++ backtick :: c :: f) with
    | some pf => simp
    | none =>
      cases p0 with
      | nil =>
        have hd := hdot.2
        simp only [List.nil_append, List.all_cons, Bool.and_eq_true] at hd
        have : matchAfterPackage (backtick :: c :: f) = some f := by
          simp [matchAfterPackage, matchFunc, hd.2.1, hd.2.2, hf]
        simp [this]
      | cons y p1 =>
        exact absurd hm (ih _ (List.cons_ne_nil _ _) rfl hdot.2)

theorem matchPackage_longest (s p f : GoString) (h : matchPackage s = some (p, f))
    (p' : GoString) (c' : Char) (f' : GoString) (hp' : p' ≠ []) (hf' : f' ≠ [])
    (hs : s = p' ++ backtick :: c' :: f') : p'.length ≤ p.length := by
  induction s generalizing p p' with
  | nil => simp [matchPackage] at h
  | cons x xs ih =>
    have hdot := (matchPackage_sound _ _ _ h).2.2.1
    simp only [List.all_cons, Bool.and_eq_true] at hdot
    rw [matchPackage_cons, if_pos hdot.1] at h
    cases p' with
    | nil => exact absurd rfl hp'
    | cons y p'' =>
      simp only [List.cons_append, List.cons.injEq] at hs
      cases p'' with
      | nil =>
        have hpne : p ≠ [] := by
          cases hm : matchPackage xs with
          | some pf =>
            simp only [hm, Option.some.injEq, Prod.mk.injEq] at h
            rw [← h.1]
            exact List.cons_ne_nil _ _
          | none =>
            simp only [hm] at h
            cases ha : matchAfterPackage xs with
            | none => simp [ha] at h
            | some f1 =>
              simp only [ha, Option.some.injEq, Prod.mk.injEq] at h
              rw [← h.1]
              exact List.cons_ne_nil _ _
        have := List.length_pos.2 hpne
        simp only [List.length_singleton]
        omega
      | cons z p3 =>
        cases hm : matchPackage xs with
        | some pf =>
          obtain ⟨p0, f0⟩ := pf
          simp only [hm, Option.some.injEq, Prod.mk.injEq] at h
          have := ih p0 (by rw [hm, h.2]) (z :: p3) (List.cons_ne_nil _ _) hs.2
          rw [← h.1]
          simp only [List.length_cons] at this ⊢
          omega
        | none =>
          exact absurd hm
            (matchPackage_complete (z :: p3) c' f' xs (List.cons_ne_nil _ _) hf' hs.2 hdot.2)

theorem ruleOf_some (raw : GoString) (r : ignoreRule) (h : ruleOf raw = some r) :
    ∃ rest, raw = backtick :: rest ∧ matchPackage rest = some (r.PackageName, r.FuncName) := by
  unfold ruleOf ignorePattern.FindAllStringSubmatch at h
  cases raw with
  | nil => simp at h
  | cons q rest =>
    by_cases hq : q = backtick
    · simp only [hq, if_true] at h
      cases hm : matchPackage rest with
      | none => simp [hm] at h
      | some pf =>
        obtain ⟨p, f⟩ := pf
        simp only [hm, Option.some.injEq] at h
        refine ⟨rest, by rw [hq], ?_⟩
        rw [← h, hm]
    · simp [hq] at h

theorem ruleOf_of_loaded (raw : GoString) (r : ignoreRule)
    (h : configFromFile (Except.ok { Ignores := [raw] }) = (some { Ignores := [r] }, none)) :
    ruleOf raw = some r := by
  simp only [configFromFile, Prod.mk.injEq, Option.some.injEq] at h
  obtain ⟨rules, h1, h2⟩ := configLoop_rules [raw] { Ignores := [] } { Ignores := [r] }
    (Prod.ext h.1 h.2)
  simp only [List.nil_append] at h1
  rw [← h1] at h2
  simpa using h2

/-- Claim C18: the rule `(P, F)` that the loader makes of an accepted raw value
has a package name and a function name that are not empty, and the raw value
is a backtick, `P`, a backtick, one character `c` and `F`, for one `c` only;
of all the ways to cut the raw value so, with parts that are not empty, `P` is
a longest first part: the first group of the pattern is greedy. -/
theorem accepted_rule_is_greedy (raw : GoString) (r : ignoreRule)
    (h : configFromFile (Except.ok { Ignores := [raw] }) = (some { Ignores := [r] }, none)) :
    r.PackageName ≠ [] ∧ r.FuncName ≠ [] ∧
    (∃! c, raw = backtick :: r.PackageName ++ backtick :: c :: r.FuncName) ∧
    (∀ P c F, P ≠ [] → F ≠ [] → raw = backtick :: P ++ backtick :: c :: F →
      P.length ≤ r.PackageName.length) := by
  obtain ⟨rest, hraw, hm⟩ := ruleOf_some raw r (ruleOf_of_loaded raw r h)
  obtain ⟨hp, hf, _, c, hc⟩ := matchPackage_sound rest _ _ hm
  refine ⟨hp, hf, ⟨c, ?_, ?_⟩, ?_⟩
  · simp only []
    rw [hraw, hc, List.cons_append]
  · intro c2 hc2
    rw [hraw, hc, List.cons_append] at hc2
    simp only [List.cons.injEq, true_and, List.append_cancel_left_eq, and_true] at hc2
    exact hc2.symm
  · intro P c2 F hP hF hcut
    rw [hraw, List.cons_append] at hcut
    simp only [List.cons.injEq, true_and] at hcut
    exact matchPackage_longest rest _ _ hm P c2 F hP hF hcut

/-- Claim C18 at the raw value of the claim, which has two candidate closing
backticks: the package name is the longer one, with a backtick in it. -/
theorem accepted_rule_is_greedy_witness :
    configFromFile (Except.ok { Ignores := ["`a`.b`.c".toList] })
      = (some { Ignores := [⟨"a`.b".toList, "c".toList⟩] }, none) ∧
    "`a`.b`.c".toList = backtick :: "a".toList ++ backtick :: '.' :: "b`.c".toList ∧
    "a".toList.length ≤ "a`.b".toList.length :=
  ⟨by decide, by decide,
   (accepted_rule_is_greedy "`a`.b`.c".toList ⟨"a`.b".toList, "c".toList⟩ (by decide)).2.2.2
     "a".toList '.' "b`.c".toList (by decide) (by decide) (by decide)⟩

end Gogocyclo
